import Mathlib

/-!
Verification development for the BKV scraper pipeline
(`kirchenväter-auto/scraper_agent.py`).

The Python source is shallowly embedded here: pure helper functions become
Lean functions over `String` / `List Char` / `Nat`; HTML documents that the
source manipulates through BeautifulSoup are embedded as a tree datatype
(`Html` below) over which the source's traversals (`get_text`, `find_all`,
`<br>` counting) are reproduced; the network is embedded as an explicit
probe oracle.  Python regular expressions used by the source are realised
as explicit character scanners over ASCII character classes (the source's
inputs for the classifier vocabularies and page markers are ASCII; Python's
unicode-aware `\w`/`\d`/`\s` classes are modelled by the corresponding
ASCII predicates, which agree on every input appearing in this development).
-/

set_option maxRecDepth 4000

namespace BKV

/-! ## Basic character classes and string helpers -/

/-- Whitespace as used by Python's `str.strip`, `str.split` and `\s`
(restricted to the ASCII range; see the module comment). -/
def isPySpace (c : Char) : Bool :=
  c = ' ' || c = '\t' || c = '\n' || c = '\r' || c = '\x0b' || c = '\x0c'

/-- Python's `\w` word-character class, ASCII restriction. -/
def isWordChar (c : Char) : Bool :=
  c.isAlphanum || c = '_'

/-- Build a string back from a character list. -/
def mkStr (cs : List Char) : String := ⟨cs⟩

/-- Python `str.strip()` (both ends, Python whitespace). -/
def pyStrip (s : String) : String :=
  mkStr (((s.toList.dropWhile isPySpace).reverse.dropWhile isPySpace).reverse)

/-- Strip characters from a fixed set off the left end (Python `lstrip(chars)`). -/
def pyLstripSet (set : List Char) (s : String) : String :=
  mkStr (s.toList.dropWhile (fun c => set.contains c))

/-- Strip characters from a fixed set off the right end (Python `rstrip(chars)`). -/
def pyRstripSet (set : List Char) (s : String) : String :=
  mkStr ((s.toList.reverse.dropWhile (fun c => set.contains c)).reverse)

/-- Lower-casing (`str.lower`), ASCII restriction. -/
def pyLower (s : String) : String := mkStr (s.toList.map Char.toLower)

/-- Maximal runs of characters satisfying `p` (helper for whitespace
collapsing, `str.split()` and word-run extraction). -/
def runsOf (p : Char → Bool) : List Char → List Char → List (List Char)
  | cur, [] => if cur.isEmpty then [] else [cur.reverse]
  | cur, c :: cs =>
    if p c then runsOf p (c :: cur) cs
    else if cur.isEmpty then runsOf p [] cs
    else cur.reverse :: runsOf p [] cs

/-- Python `str.split()` (split on whitespace runs, dropping empties). -/
def pyWords (s : String) : List String :=
  (runsOf (fun c => !isPySpace c) [] s.toList).map mkStr

/-- Word count of a plain-text body, as `len(plain_text.split())`. -/
def pyWordCount (s : String) : Nat := (pyWords s).length

/-- `re.sub(r'\s+', ' ', s).strip()`: collapse whitespace runs and trim. -/
def collapseWsStrip (s : String) : String :=
  String.intercalate " " ((runsOf (fun c => !isPySpace c) [] s.toList).map mkStr)

/-- `normalise_whitespace` from the source: replace NBSP with a space,
delete soft hyphens, collapse all whitespace runs and trim. -/
def normaliseWhitespace (s : String) : String :=
  let cs := (s.toList.map (fun c => if c.toNat = 160 then ' ' else c)).filter
    (fun c => c.toNat ≠ 173)
  collapseWsStrip (mkStr cs)

/-- Does `needle` occur at the head of `hay`? -/
def listLeads : List Char → List Char → Bool
  | [], _ => true
  | _ :: _, [] => false
  | a :: as, b :: bs => a == b && listLeads as bs

/-- Substring containment, Python's `needle in hay` on strings. -/
def listHasSub (needle : List Char) : List Char → Bool
  | [] => needle.isEmpty
  | c :: t => listLeads needle (c :: t) || listHasSub needle t

/-- Substring containment on strings. -/
def strHasSub (hay needle : String) : Bool := listHasSub needle.toList hay.toList

/-! ## Page-marker regexes

The source removes printed page references with two regex substitutions:
`PAGE_RANGE_RE = r'\bS\.\s*\d+\s*(?:[-–]|bis)\s*\d+\b'` and
`PAGE_SINGLE_RE = r'\bS\.\s*\d+[A-Za-z0-9]*\b'`, each replaced by a single
space, range sub first.  These scanners reproduce `re.sub`'s left-to-right
leftmost-match behaviour; `\b` is checked against the characters of the
original text. -/

/-- Is the previous character (if any) a word character? (`\b` test). -/
def prevIsWord : Option Char → Bool
  | none => false
  | some c => isWordChar c

/-- Does the remaining text start with a word character? (`\b` test). -/
def nextIsWord : List Char → Bool
  | [] => false
  | c :: _ => isWordChar c

/-- Match `PAGE_SINGLE_RE` at the head of `cs` (given the preceding original
character for the leading `\b`); returns the matched length. -/
def matchPageSingle (prev : Option Char) (cs : List Char) : Option Nat :=
  if prevIsWord prev then none else
  match cs with
  | 'S' :: '.' :: rest =>
    let sp := (rest.takeWhile isPySpace).length
    let rest1 := rest.drop sp
    let ds := (rest1.takeWhile Char.isDigit).length
    if ds = 0 then none else
    let rest2 := rest1.drop ds
    let al := (rest2.takeWhile Char.isAlphanum).length
    let rest3 := rest2.drop al
    if nextIsWord rest3 then none
    else some (2 + sp + ds + al)
  | _ => none

/-- Match `PAGE_RANGE_RE` at the head of `cs`; returns the matched length. -/
def matchPageRange (prev : Option Char) (cs : List Char) : Option Nat :=
  if prevIsWord prev then none else
  match cs with
  | 'S' :: '.' :: rest =>
    let sp := (rest.takeWhile isPySpace).length
    let rest1 := rest.drop sp
    let ds := (rest1.takeWhile Char.isDigit).length
    if ds = 0 then none else
    let rest2 := rest1.drop ds
    let sp2 := (rest2.takeWhile isPySpace).length
    let rest3 := rest2.drop sp2
    let dash : Option (Nat × List Char) :=
      match rest3 with
      | '-' :: r => some (1, r)
      | '–' :: r => some (1, r)
      | 'b' :: 'i' :: 's' :: r => some (3, r)
      | _ => none
    match dash with
    | none => none
    | some (dl, rest4) =>
      let sp3 := (rest4.takeWhile isPySpace).length
      let rest5 := rest4.drop sp3
      let ds2 := (rest5.takeWhile Char.isDigit).length
      if ds2 = 0 then none else
      let rest6 := rest5.drop ds2
      if nextIsWord rest6 then none
      else some (2 + sp + ds + sp2 + dl + sp3 + ds2)
  | _ => none

/-- One `re.sub` pass: scan left to right, replacing each match of `try1`
by a single space; `prev` is the last character of the original text seen
so far (for `\b`), `fuel` bounds the recursion by the text length. -/
def subScan (try1 : Option Char → List Char → Option Nat) :
    Nat → Option Char → List Char → List Char
  | 0, _, cs => cs
  | _, _, [] => []
  | fuel + 1, prev, c :: cs =>
    match try1 prev (c :: cs) with
    | some n =>
      ' ' :: subScan try1 fuel (((c :: cs).take n).getLast?) ((c :: cs).drop n)
    | none => c :: subScan try1 fuel (some c) cs

/-- `strip_page_markers` from the source. -/
def stripPageMarkers (s : String) : String :=
  if s = "" then s
  else
    let cs := s.toList
    let cs1 := subScan matchPageRange (cs.length + 1) none cs
    mkStr (subScan matchPageSingle (cs1.length + 1) none cs1)

/-! ## Duplicate-enumerator collapse

`DUPLICATE_ENUM_RE = r'\b([0-9IVXLCDM]+)\.\s+\1\b'` with `re.IGNORECASE`,
substituted by `group(1) + '.'`. -/

/-- The enumerator character class `[0-9IVXLCDM]`, case-insensitive. -/
def isEnumChar (c : Char) : Bool :=
  c.isDigit || ['I', 'V', 'X', 'L', 'C', 'D', 'M'].contains c.toUpper

/-- Case-insensitive prefix test (for the regex back-reference `\1`). -/
def listLeadsCI : List Char → List Char → Bool
  | [], _ => true
  | _ :: _, [] => false
  | a :: as, b :: bs => a.toLower == b.toLower && listLeadsCI as bs

/-- Match `DUPLICATE_ENUM_RE` at the head of `cs`; returns the replacement
characters (the first enumerator plus a dot) and the matched length. -/
def matchDupEnum (prev : Option Char) (cs : List Char) : Option (List Char × Nat) :=
  if prevIsWord prev then none else
  let run := cs.takeWhile isEnumChar
  if run.isEmpty then none else
  match cs.drop run.length with
  | '.' :: rest1 =>
    let sp := (rest1.takeWhile isPySpace).length
    if sp = 0 then none else
    let rest2 := rest1.drop sp
    if listLeadsCI run rest2 && !nextIsWord (rest2.drop run.length) then
      some (run ++ ['.'], run.length + 1 + sp + run.length)
    else none
  | _ => none

/-- One `re.sub` pass for `collapse_duplicate_enumerators`. -/
def subScanDup : Nat → Option Char → List Char → List Char
  | 0, _, cs => cs
  | _, _, [] => []
  | fuel + 1, prev, c :: cs =>
    match matchDupEnum prev (c :: cs) with
    | some (rep, n) =>
      rep ++ subScanDup fuel (((c :: cs).take n).getLast?) ((c :: cs).drop n)
    | none => c :: subScanDup fuel (some c) cs

/-- `collapse_duplicate_enumerators` from the source. -/
def collapseDuplicateEnumerators (s : String) : String :=
  if s = "" then s
  else mkStr (subScanDup (s.toList.length + 1) none s.toList)

/-! ## Identity layer: slugs and deterministic UUIDs

The source derives `Author.id = uuid5(UUID_NAMESPACE_AUTHORS, author_slug)`
and `Work.id = uuid5(UUID_NAMESPACE_WORKS, work_slug)`.  `uuid.uuid5` is
SHA-1 over the namespace bytes followed by the UTF-8 encoded name, truncated
to 16 bytes with the version/variant bits set; it is embedded here in full.
A UUID is represented by its list of 16 bytes. -/

/-- Reduction modulo 2^32. -/
def w32 (n : Nat) : Nat := n % 4294967296

/-- 32-bit left rotation by `b` (for `b ≤ 32`), on values reduced mod 2^32. -/
def rotl (b n : Nat) : Nat :=
  w32 (w32 n * 2 ^ b + w32 n / 2 ^ (32 - b))

/-- UTF-8 encoding of one character as bytes. -/
def charUtf8 (c : Char) : List Nat :=
  let n := c.toNat
  if n < 128 then [n]
  else if n < 2048 then [192 + n / 64, 128 + n % 64]
  else if n < 65536 then [224 + n / 4096, 128 + n / 64 % 64, 128 + n % 64]
  else [240 + n / 262144, 128 + n / 4096 % 64, 128 + n / 64 % 64, 128 + n % 64]

/-- UTF-8 encoding of a string as bytes (`str.encode('utf-8')`). -/
def utf8Bytes (s : String) : List Nat := (s.toList.map charUtf8).flatten

/-- Big-endian bytes of `n`, `k` bytes wide. -/
def beBytes (k n : Nat) : List Nat :=
  (List.range k).map (fun i => n / 2 ^ (8 * (k - 1 - i)) % 256)

/-- SHA-1 message padding: `0x80`, zeros to 56 mod 64, 8-byte bit length. -/
def sha1Pad (msg : List Nat) : List Nat :=
  let l := msg.length
  let zeros := (64 + 56 - (l + 1) % 64) % 64
  msg ++ [128] ++ List.replicate zeros 0 ++ beBytes 8 (8 * l)

/-- Split a byte list into 64-byte blocks (`fuel` bounds the recursion). -/
def chunks64Aux : Nat → List Nat → List (List Nat)
  | 0, _ => []
  | _, [] => []
  | fuel + 1, xs => xs.take 64 :: chunks64Aux fuel (xs.drop 64)

/-- Big-endian 32-bit words from bytes. -/
def bytesToWords : List Nat → List Nat
  | b0 :: b1 :: b2 :: b3 :: rest =>
    (((b0 * 256 + b1) * 256 + b2) * 256 + b3) :: bytesToWords rest
  | _ => []

/-- Extend the 16 message words to 80, keeping the reversed prefix as the
accumulator: `w[i] = rotl1 (w[i-3] xor w[i-8] xor w[i-14] xor w[i-16])`. -/
def sha1Extend : Nat → List Nat → List Nat
  | 0, rev => rev.reverse
  | k + 1, rev =>
    let w := rotl 1 ((rev.getD 2 0) ^^^ (rev.getD 7 0) ^^^ (rev.getD 13 0) ^^^ (rev.getD 15 0))
    sha1Extend k (w :: rev)

/-- One SHA-1 round, at round index `i` with message word `w`. -/
def sha1Round (st : Nat × Nat × Nat × Nat × Nat) (iw : Nat × Nat) :
    Nat × Nat × Nat × Nat × Nat :=
  let (a, b, c, d, e) := st
  let (i, w) := iw
  let f :=
    if i < 20 then (b &&& c) ||| ((b ^^^ 4294967295) &&& d)
    else if i < 40 then b ^^^ c ^^^ d
    else if i < 60 then (b &&& c) ||| (b &&& d) ||| (c &&& d)
    else b ^^^ c ^^^ d
  let k :=
    if i < 20 then 1518500249
    else if i < 40 then 1859775393
    else if i < 60 then 2400959708
    else 3395469782
  let temp := w32 (rotl 5 a + f + e + k + w)
  (temp, a, rotl 30 b, c, d)

/-- Process one 64-byte block onto the running hash state. -/
def sha1Block (h : Nat × Nat × Nat × Nat × Nat) (block : List Nat) :
    Nat × Nat × Nat × Nat × Nat :=
  let ws := sha1Extend 64 (bytesToWords block).reverse
  let (h0, h1, h2, h3, h4) := h
  let (a, b, c, d, e) := ws.enum.foldl sha1Round h
  (w32 (h0 + a), w32 (h1 + b), w32 (h2 + c), w32 (h3 + d), w32 (h4 + e))

/-- SHA-1 digest (20 bytes) of a byte message. -/
def sha1 (msg : List Nat) : List Nat :=
  let padded := sha1Pad msg
  let init : Nat × Nat × Nat × Nat × Nat :=
    (1732584193, 4023233417, 2562383102, 271733878, 3285377520)
  let (h0, h1, h2, h3, h4) := (chunks64Aux (padded.length + 1) padded).foldl sha1Block init
  beBytes 4 h0 ++ beBytes 4 h1 ++ beBytes 4 h2 ++ beBytes 4 h3 ++ beBytes 4 h4

/-- `uuid.uuid5(namespace, name)`: SHA-1 of namespace bytes plus UTF-8 name,
first 16 bytes, version nibble set to 5 and RFC 4122 variant set. -/
def uuid5 (namespaceBytes : List Nat) (name : String) : List Nat :=
  let digest := (sha1 (namespaceBytes ++ utf8Bytes name)).take 16
  let digest := digest.set 6 (digest.getD 6 0 % 16 + 80)
  digest.set 8 (digest.getD 8 0 % 64 + 128)

/-- Bytes of `UUID_NAMESPACE_AUTHORS = '11111111-1111-1111-1111-111111111111'`. -/
def uuidNamespaceAuthors : List Nat := List.replicate 16 17

/-- Bytes of `UUID_NAMESPACE_WORKS = '22222222-2222-2222-2222-222222222222'`. -/
def uuidNamespaceWorks : List Nat := List.replicate 16 34

/-- Modelled from the spec: the `slugify` library used by `slugify_name` is
external to the repository; per the spec a slug is a "normalized, URL-safe
identifier derived from a human-readable name" — lower-cased, punctuation
removed, spaces replaced with hyphens (as the source's docstring also
says).  ASCII model: lowercase, alphanumeric runs joined by hyphens. -/
def slugifyName (name : String) : String :=
  String.intercalate "-"
    ((runsOf (fun c => c.isAlphanum) [] (pyLower name).toList).map mkStr)

/-- `author_display = author_name or 'Unbekannt'; author_slug = slugify_name(...)`. -/
def authorSlugOf (authorName : String) : String :=
  slugifyName (if authorName = "" then "Unbekannt" else authorName)

/-- Python `a or b` on optional strings (empty string is falsy). -/
def pyOrStr (a : Option String) (b : String) : String :=
  match a with
  | some s => if s = "" then b else s
  | none => b

/-- `work_title = trans_title or orig_title or 'Unbekannt'`. -/
def workTitleOf (transTitle origTitle : Option String) : String :=
  pyOrStr transTitle (pyOrStr origTitle "Unbekannt")

/-- `work_slug = slugify_name(f"{author_slug}-{work_title}-de")`. -/
def workSlugOf (authorName : String) (transTitle origTitle : Option String) : String :=
  slugifyName (authorSlugOf authorName ++ "-" ++ workTitleOf transTitle origTitle ++ "-de")

/-- The `(Author.id, Work.id)` pair derived by `process_version` for one
version's parsed metadata (`uuid5` over the fixed per-entity namespaces). -/
def deriveIdentity (authorName : String) (transTitle origTitle : Option String) :
    List Nat × List Nat :=
  (uuid5 uuidNamespaceAuthors (authorSlugOf authorName),
   uuid5 uuidNamespaceWorks (workSlugOf authorName transTitle origTitle))

/-! ## HTML documents

BeautifulSoup trees are embedded as element/text trees; attributes and the
wrapper-pruning stages are not needed by the functions below, which receive
the already-pruned main content of a division (`main_html`).  A mutual
inductive keeps all recursions structural. -/

mutual

inductive Html where
  | text : String → Html
  | elem : String → HtmlList → Html

inductive HtmlList where
  | nil : HtmlList
  | cons : Html → HtmlList → HtmlList

end

/-- Convenience constructor for child lists. -/
def hl : List Html → HtmlList
  | [] => .nil
  | h :: t => .cons h (hl t)

mutual

/-- All text nodes of a document, in document order. -/
def Html.texts : Html → List String
  | .text s => [s]
  | .elem _ cs => HtmlList.textsL cs

def HtmlList.textsL : HtmlList → List String
  | .nil => []
  | .cons h t => Html.texts h ++ HtmlList.textsL t

end

/-- BeautifulSoup `get_text(sep, strip=True)`: each text node stripped,
empties dropped, joined with `sep`. -/
def getTextStripSep (sep : String) (h : Html) : String :=
  String.intercalate sep ((h.texts.map pyStrip).filter (fun t => t ≠ ""))

mutual

/-- Number of `<br>` elements.  In the source this is `html.count('<br')`
over the serialised markup, where each `br` element contributes exactly one
occurrence and (escaped) text contributes none. -/
def Html.brCount : Html → Nat
  | .text _ => 0
  | .elem tag cs => (if tag = "br" then 1 else 0) + HtmlList.brCountL cs

def HtmlList.brCountL : HtmlList → Nat
  | .nil => 0
  | .cons h t => Html.brCount h + HtmlList.brCountL t

end

mutual

/-- Document text after `br.replace_with('\n')` for every `<br>`, read with
`get_text('', strip=False)` (plain concatenation of text nodes). -/
def Html.textBr : Html → String
  | .text s => s
  | .elem tag cs => if tag = "br" then "\n" else HtmlList.textBrL cs

def HtmlList.textBrL : HtmlList → String
  | .nil => ""
  | .cons h t => Html.textBr h ++ HtmlList.textBrL t

end

/-- The block-level tags scanned by `extract_text_lines`. -/
def blockTags : List String := ["h1", "h2", "h3", "h4", "p", "li", "blockquote"]

mutual

/-- `soup.find_all(block_tags)`: matching elements in document order
(an element precedes its matching descendants, as in BeautifulSoup). -/
def Html.findBlocks : Html → List Html
  | .text _ => []
  | .elem tag cs =>
    (if blockTags.contains tag then [Html.elem tag cs] else []) ++ HtmlList.findBlocksL cs

def HtmlList.findBlocksL : HtmlList → List Html
  | .nil => []
  | .cons h t => Html.findBlocks h ++ HtmlList.findBlocksL t

end

/-! ## Verse/prose extraction (`detect_verses`, `extract_text_lines`,
`merge_enumeration_lines`) and the per-passage line assembly of
`process_version`. -/

/-- One raw line of `detect_verses`: strip, drop if empty, remove page
markers and normalise whitespace, drop if empty; the indent level is the
count of leading whitespace (`len(raw) - len(raw.lstrip())`). -/
def cleanVerseLine (rawLine : String) : Option (String × Nat) :=
  let stripped := pyStrip rawLine
  if stripped = "" then none
  else
    let cl := normaliseWhitespace (stripPageMarkers stripped)
    if cl = "" then none
    else some (cl, (rawLine.toList.takeWhile isPySpace).length)

/-- Split on newline characters, keeping empties (`text.split('\n')`). -/
def splitNl (cs : List Char) : List (List Char) :=
  cs.foldr
    (fun c acc =>
      match acc with
      | [] => if c = '\n' then [[], []] else [[c]]
      | cur :: rest => if c = '\n' then [] :: cur :: rest else (c :: cur) :: rest)
    [[]]

/-- The candidate verse lines of a body: split the `br`-to-newline text on
newlines and clean each line. -/
def verseLineCandidates (doc : Html) : List (String × Nat) :=
  ((splitNl (Html.textBr doc).toList).map mkStr).filterMap cleanVerseLine

/-- `detect_verses` from the source: `None` when the markup holds fewer
than 3 line-break markers; otherwise the cleaned lines, but only when at
least 3 of them survive cleaning. -/
def detectVerses (doc : Html) : Option (List (String × Nat)) :=
  if Html.brCount doc < 3 then none
  else
    let lines := verseLineCandidates doc
    if 3 ≤ lines.length then some lines else none

/-- The cleaning pipeline applied to each block's text and to the fallback
text: `strip_page_markers`, `normalise_whitespace`,
`collapse_duplicate_enumerators`. -/
def cleanBlockText (s : String) : String :=
  collapseDuplicateEnumerators (normaliseWhitespace (stripPageMarkers s))

/-- One block element of `extract_text_lines`: its stripped text cleaned,
dropped when empty, with indent 1 for `li`/`blockquote` and the heading
flag for `h1`-`h4`. -/
def lineOfBlock (e : Html) : Option (String × Nat × Bool) :=
  match e with
  | .text _ => none
  | .elem tag cs =>
    let tv := cleanBlockText (getTextStripSep " " (.elem tag cs))
    if tv = "" then none
    else some (tv, (if tag = "li" ∨ tag = "blockquote" then 1 else 0),
      tag = "h1" ∨ tag = "h2" ∨ tag = "h3" ∨ tag = "h4")

/-- The cleaned full plain text used as `extract_text_lines`' fallback. -/
def cleanedFallbackText (doc : Html) : String :=
  cleanBlockText (getTextStripSep " " doc)

/-- `extract_text_lines` from the source: one line per block-level element;
when no block yields a line, the cleaned full text becomes a single
fallback line, provided it is nonempty. -/
def extractTextLines (doc : Html) : List (String × Nat × Bool) :=
  let lines := doc.findBlocks.filterMap lineOfBlock
  if lines.isEmpty then
    let fallback := cleanedFallbackText doc
    if fallback = "" then [] else [(fallback, 0, false)]
  else lines

/-- `ENUMERATION_ONLY_RE`: 1-4 digits, or 1-6 upper-case roman numeral
letters, or a single letter; optionally followed by `.` or `)`. -/
def enumOnly (cs : List Char) : Bool :=
  let optDot : List Char → Bool := fun r => r.isEmpty || r = ['.'] || r = [')']
  let ds := cs.takeWhile Char.isDigit
  let rm := cs.takeWhile (fun c => ['I', 'V', 'X', 'L', 'C', 'D', 'M'].contains c)
  (decide (1 ≤ ds.length) && decide (ds.length ≤ 4) && optDot (cs.drop ds.length)) ||
  (decide (1 ≤ rm.length) && decide (rm.length ≤ 6) && optDot (cs.drop rm.length)) ||
  (match cs with
   | c :: r => c.isAlpha && optDot r
   | [] => false)

/-- `merge_enumeration_lines`' loop: `pending` holds a standalone
enumerator line awaiting its continuation. -/
def mergeEnumAux : Option (String × Nat) → List (String × Nat × Bool) →
    List (String × Nat × Bool)
  | pending, [] =>
    match pending with
    | some (en, ei) => [(en, ei, true)]
    | none => []
  | pending, (tv, il, ih) :: rest =>
    let cv := cleanBlockText tv
    if cv = "" then mergeEnumAux pending rest
    else
      match pending with
      | some (en, ei) =>
        let ec := pyStrip (pyRstripSet ['.', ')'] en)
        let combined :=
          if ec ≠ "" ∧ listLeads (pyLower ec).toList (pyLower cv).toList = true then
            let remainder := pyLstripSet [' ', '.', ')'] (mkStr (cv.toList.drop ec.length))
            if remainder ≠ "" then pyStrip (en ++ " " ++ remainder) else en
          else pyStrip (en ++ " " ++ cv)
        (combined, min ei il, ih) :: mergeEnumAux none rest
      | none =>
        let trimmed := pyStrip cv
        if trimmed ≠ "" ∧ trimmed.length ≤ 6 ∧ enumOnly trimmed.toList then
          mergeEnumAux (some (trimmed, il)) rest
        else (cv, il, ih) :: mergeEnumAux none rest

/-- `merge_enumeration_lines` from the source. -/
def mergeEnumerationLines (lines : List (String × Nat × Bool)) :
    List (String × Nat × Bool) :=
  mergeEnumAux none lines

/-- A `Verse` row as assembled by `process_version` (`id` and `passage_id`
are freshly generated UUIDs and are omitted from the row model). -/
structure VerseRow where
  lineNo : Nat
  text : String
  indentLevel : Nat
  isHeading : Bool
deriving DecidableEq, Repr

/-- The `Verse` rows `process_version` emits for one content-unit's
passage: the detected verse lines, else the (merged) prose lines, each
numbered from 1. -/
def passageVerses (doc : Html) : List VerseRow :=
  match detectVerses doc with
  | some verseLines =>
    verseLines.enum.map (fun p => ⟨p.1 + 1, p.2.1, p.2.2, false⟩)
  | none =>
    let proseLines := extractTextLines doc
    let proseLines := if proseLines.isEmpty then proseLines
      else mergeEnumerationLines proseLines
    proseLines.enum.map (fun p => ⟨p.1 + 1, p.2.1, p.2.2.1, p.2.2.2⟩)

/-! ## Section classifier (pre-content and post-content passes) -/

def sectionIntroKeywords : List String :=
  ["einleitung", "einfuehr", "einleit", "prolog", "prologus", "proemium",
   "prolegomena", "vorwort", "vorrede", "vorbemerkung", "vorspruch", "preface",
   "introduction", "widmung", "dedikation", "dedication"]

def sectionPrefaceKeywords : List String :=
  ["preface", "praefatio", "praefation", "vorwort", "vorrede", "widmung",
   "dedikation", "dedication", "vorbemerkung", "prolog"]

def sectionAppendixKeywords : List String :=
  ["anhang", "anhaenge", "appendix", "appendices", "zusatz", "zusatze",
   "nachtrag", "nachtraege", "register", "index", "indices", "verzeichnis",
   "anhange", "inhalt", "inhaltverzeichnis", "tabellen", "chronologie",
   "bibliographie", "glossar"]

def sectionCommentaryKeywords : List String :=
  ["kommentar", "commentar", "commentarius", "auslegung", "exkurs",
   "interpretation", "erklarung", "erlaeuterung", "erlaeuterungen",
   "bemerkung", "bemerkungen", "analyse", "glosse", "glossen"]

def sectionNotesKeywords : List String :=
  ["anmerkung", "anmerkungen", "anmerk", "noten", "note", "notes", "notiz",
   "notizen", "fussnote", "fussnoten", "marginalien", "hinweis", "hinweise",
   "beilage", "beilagen"]

def sectionMainHints : List String :=
  ["kapitel", "kap.", "cap.", "cap ", "caput", "capitulum", "buch", "liber",
   "tractat", "tractatus", "homilie", "homilia", "predigt", "rede", "brief",
   "epistel", "sermo", "sermon", "teil ", "abschnitt", "section", "lektion"]

/-- `_normalise_classifier_text`: join the present nonempty parts with
spaces, collapse whitespace, strip, lower-case. -/
def normClassifierText (parts : List (Option String)) : String :=
  let combined := String.intercalate " "
    ((parts.filterMap id).filter (fun p => p ≠ ""))
  pyLower (collapseWsStrip combined)

/-- `_contains_keyword`: false on empty text, else any keyword occurs as a
substring. -/
def containsKeyword (text : String) (keywords : List String) : Bool :=
  if text = "" then false
  else keywords.any (fun k => strHasSub text k)

/-- `ROMAN_NUMERAL_RE.search`: `\b[IVXLCDM]{1,6}\b` matches iff some maximal
word-character run consists solely of (upper-case) roman-numeral letters
and has length 1 to 6.  (The classifier only ever applies this to
lower-cased text, so in the pipeline the search never succeeds.) -/
def romanSearch (s : String) : Bool :=
  (runsOf isWordChar [] s.toList).any (fun run =>
    decide (1 ≤ run.length) && decide (run.length ≤ 6) &&
      run.all (fun c => ['I', 'V', 'X', 'L', 'C', 'D', 'M'].contains c))

/-- `classify_section_role_pre_content` from the source. -/
def classifySectionRolePreContent (label heading : Option String)
    (level orderIndex totalSections : Nat) : String × List String :=
  let text := normClassifierText [label, heading]
  if containsKeyword text sectionIntroKeywords then
    ("introduction", ["keyword:introduction"])
  else if containsKeyword text sectionPrefaceKeywords then
    ("preface", ["keyword:preface"])
  else if containsKeyword text sectionAppendixKeywords then
    ("appendix", ["keyword:appendix"])
  else if containsKeyword text sectionNotesKeywords then
    ("notes", ["keyword:notes"])
  else if containsKeyword text sectionCommentaryKeywords then
    ("commentary", ["keyword:commentary"])
  else if level = 1 ∧ orderIndex = 1 then
    ("introduction", ["first-top-level"])
  else if level = 1 ∧ 0 < totalSections ∧ orderIndex = totalSections then
    ("appendix", ["last-top-level"])
  else
    let labelText := normClassifierText [label]
    if romanSearch labelText ∨ romanSearch (normClassifierText [heading]) then
      ("main_text", ["roman-numeral"])
    else if labelText ≠ "" ∧ containsKeyword labelText sectionMainHints then
      ("main_text", ["structural-hint"])
    else if text ≠ "" ∧ containsKeyword text sectionMainHints then
      ("main_text", ["text-hint"])
    else ("main_text", ["fallback-main"])

/-- `_add_reason`: append a reason code unless already present. -/
def addReason (reasons : List String) (code : String) : List String :=
  if reasons.contains code then reasons else reasons ++ [code]

/-- `refine_section_role_post_content` from the source: the post-content
refinement pass over the pre-content role. -/
def refineSectionRolePostContent (role : String) (reasons : List String)
    (plainText : String) (containsVerses : Bool) (noteCount : Nat)
    (level orderIndex totalSections : Nat) (label heading : Option String) :
    String × List String :=
  let text := normClassifierText [label, heading]
  let wordCount := pyWordCount plainText
  let s1 : String × List String :=
    if 0 < noteCount ∧ wordCount < 80 ∧ role ≠ "notes" ∧ role ≠ "commentary" then
      ("notes", addReason reasons ("notes-dominant:" ++ toString noteCount))
    else if 3 < noteCount ∧ role = "main_text" ∧
        containsKeyword text (sectionNotesKeywords ++ sectionCommentaryKeywords) = true then
      ("commentary", addReason reasons "notes-keyword-dominant")
    else (role, reasons)
  let s2 : String × List String :=
    if (s1.1 = "introduction" ∨ s1.1 = "preface") ∧ containsVerses = true then
      ("main_text", addReason s1.2 "verses-promote-main")
    else s1
  let s3 : String × List String :=
    if s2.1 = "main_text" ∧ containsKeyword text sectionAppendixKeywords = true then
      ("appendix", addReason s2.2 "appendix-keyword-post")
    else s2
  let s4 : String × List String :=
    if s3.1 = "main_text" ∧ containsKeyword text sectionCommentaryKeywords = true then
      ("commentary", addReason s3.2 "commentary-keyword-post")
    else s3
  let s5 : String × List String :=
    if s4.1 = "main_text" ∧ containsKeyword text sectionNotesKeywords = true ∧
        0 < noteCount then
      ("notes", addReason s4.2 "note-keyword-post")
    else s4
  let s6 : String × List String :=
    if s5.1 = "main_text" ∧ level = 1 ∧ orderIndex ≤ 2 ∧ wordCount < 180 ∧
        containsVerses = false ∧
        containsKeyword text (sectionIntroKeywords ++ sectionPrefaceKeywords) = true then
      ("introduction", addReason s5.2 ("short-early-section:" ++ toString wordCount))
    else s5
  let s7 : String × List String :=
    if s6.1 = "main_text" ∧ 0 < totalSections ∧ totalSections - 1 ≤ orderIndex ∧
        wordCount < 150 ∧ containsVerses = false ∧
        containsKeyword text sectionMainHints = false then
      ("appendix", addReason s6.2 "trailing-short-section")
    else s6
  let s8 : String × List String :=
    if s7.1 = "main_text" ∧ wordCount < 60 ∧ 1 ≤ noteCount ∧
        containsVerses = false then
      ("commentary", addReason s7.2 "short-with-notes")
    else s7
  s8

/-! ## Per-work structure summary (`build_structure_summary`)

A section profile is represented by its `role` string, the only field the
summary's counts, flags and dominant role read (the `section_overview`
pass-through of the remaining profile fields is not modelled). -/

/-- Roles in first-occurrence order (Counter insertion order). -/
def firstSeen : List String → List String → List String
  | _, [] => []
  | seen, r :: rest =>
    if seen.contains r then firstSeen seen rest
    else r :: firstSeen (r :: seen) rest

/-- `Counter.most_common(1)`: the first-seen role with the (strictly)
largest count. -/
def pickDominant (roles : List String) : Option String :=
  (firstSeen [] roles).foldl
    (fun best r =>
      match best with
      | none => some r
      | some b => if roles.count b < roles.count r then some r else best)
    none

structure StructureSummary where
  counts : String → Nat
  hasIntroduction : Bool
  hasAppendix : Bool
  hasCommentary : Bool
  dominantRole : Option String
  totalSections : Nat

/-- `build_structure_summary` from the source (fields named after the
summary dict keys).  `has_introduction = bool(intro or preface)`,
`has_appendix = counts.get('appendix', 0) > 0`,
`has_commentary = bool(commentary or notes)`. -/
def buildStructureSummary (roles : List String) : StructureSummary :=
  if roles.isEmpty then
    { counts := fun _ => 0, hasIntroduction := false, hasAppendix := false,
      hasCommentary := false, dominantRole := none, totalSections := 0 }
  else
    { counts := fun r => roles.count r
      hasIntroduction :=
        !(roles.count "introduction" == 0) || !(roles.count "preface" == 0)
      hasAppendix := decide (0 < roles.count "appendix")
      hasCommentary :=
        !(roles.count "commentary" == 0) || !(roles.count "notes" == 0)
      dominantRole := pickDominant roles
      totalSections := roles.length }

/-! ## Notes, note links and the pre-persistence pruning -/

structure Note where
  id : String
  workId : String
  noteKey : String
  noteType : String
  html : String
  plainText : String
  orderIndex : Nat
deriving DecidableEq, Repr

structure NoteLink where
  id : String
  workId : String
  noteId : String
  originPassageId : String
  originHtmlAnchor : String
  contextSnippet : String
  positionChar : Option Nat
deriving DecidableEq, Repr

/-- The pruning step of `process_version`: when any note links exist, keep
exactly the notes whose id is referenced by some link; otherwise drop all
notes. -/
def pruneNotes (noteLinks : List NoteLink) (notesList : List Note) : List Note :=
  if noteLinks.isEmpty then []
  else notesList.filter (fun n => noteLinks.any (fun l => l.noteId == n.id))

/-! ## Persistence adapter (`Database._upsert_blocking`) -/

/-- The observable outcome of `_upsert_blocking`: the function never raises
on a status check — it either accepts the status or logs a warning. -/
inductive UpsertOutcome where
  | ok
  | warnedUnexpected (status : Option Nat)
deriving DecidableEq, Repr

/-- `_upsert_blocking`'s handling of the store's reported status code
(`None` models a response object carrying no status): statuses 200, 201,
204 and 409 (conflict) are accepted silently; anything else is only
logged.  `table` and `rows` are carried to mirror the call shape. -/
def upsertBlocking (table : String) (rows : List (String × String))
    (status : Option Nat) : UpsertOutcome :=
  let _ := table
  let _ := rows
  if status = some 200 ∨ status = some 201 ∨ status = some 204 ∨ status = some 409 then
    .ok
  else .warnedUnexpected status

/-! ## TOC entries, the section-tree builder of `process_version`,
and the synthetic division probing of `parse_toc` -/

structure TocEntry where
  level : Nat
  label : String
  url : Option String
  hasContent : Bool
  divisionId : Option Nat
deriving DecidableEq, Repr

/-- A `Section` row.  `generate_uuid()` produces a fresh identifier per
loop iteration; it is modelled by the (unique) running loop counter, which
preserves exactly the identity structure the invariants depend on.
`work_id` (constant per work) and `title` (set later from the division
heading) are omitted. -/
structure SectionRec where
  id : Nat
  parentId : Option Nat
  level : Nat
  label : String
  orderIndex : Nat
deriving DecidableEq, Repr

/-- `while section_stack and section_stack[-1][0] >= level: pop` — the
stack holds `(level, id)` pairs, head is the top. -/
def popStack (stack : List (Nat × Nat)) (lvl : Nat) : List (Nat × Nat) :=
  match stack with
  | [] => []
  | (l, sid) :: rest => if lvl ≤ l then popStack rest lvl else (l, sid) :: rest

/-- `if max_sections and idx > max_sections: break` (Python truthiness:
`max_sections = 0` never breaks). -/
def sectionBreak (maxSections : Option Nat) (idx : Nat) : Bool :=
  match maxSections with
  | none => false
  | some m => !(m == 0) && decide (m < idx)

/-- The section-assembly loop of `process_version`: one `Section` per TOC
entry, `order_index = idx` counting from 1, parent resolved through the
level stack. -/
def buildSectionsAux (maxSections : Option Nat) :
    List TocEntry → Nat → List (Nat × Nat) → List SectionRec
  | [], _, _ => []
  | e :: rest, idx, stack =>
    if sectionBreak maxSections idx then []
    else
      let stack1 := popStack stack e.level
      let parentId := stack1.head?.map Prod.snd
      ⟨idx, parentId, e.level, e.label, idx⟩ ::
        buildSectionsAux maxSections rest (idx + 1) ((e.level, idx) :: stack1)

/-- All `Section` rows assembled for one work from its TOC entry list. -/
def buildSections (maxSections : Option Nat) (entries : List TocEntry) :
    List SectionRec :=
  buildSectionsAux maxSections entries 1 []

/-- The outcome of probing one synthetic division URL: the request either
raised (`fail`) or returned a status code and a body length. -/
inductive ProbeResult where
  | fail
  | resp (status : Nat) (bodyLen : Nat)
deriving DecidableEq, Repr

/-- A probe lets the loop continue iff it returned status 200 with a body
of at least 400 characters (the source breaks on an exception, on a
non-200 status, and on `len(response.text) < 400`). -/
def probeOk : ProbeResult → Bool
  | .fail => false
  | .resp status bodyLen => status == 200 && decide (400 ≤ bodyLen)

/-- The level-1 TOC entry produced for a successful probe of division `n`
(the division URL resolved against the version's base URL). -/
def syntheticEntry (base : String) (n : Nat) : TocEntry :=
  { level := 1, label := "Division " ++ toString n,
    url := some (base ++ "/divisions/" ++ toString n),
    hasContent := true, divisionId := some n }

/-- The probing loop of `parse_toc`, starting at division `n` with `fuel`
probes remaining: append an entry per passing probe, stop at the first
failing one. -/
def syntheticProbeAux (probe : Nat → ProbeResult) (base : String) :
    Nat → Nat → List TocEntry
  | _, 0 => []
  | n, fuel + 1 =>
    if probeOk (probe n) then
      syntheticEntry base n :: syntheticProbeAux probe base (n + 1) fuel
    else []

/-- The synthetic-TOC fallback of `parse_toc`: probe `divisions/1`,
`divisions/2`, ... up to `divisions/200` (`for index in range(1, 201)`),
halting at the first probe that errors, returns non-200 or a short body. -/
def syntheticDivisionToc (probe : Nat → ProbeResult) (base : String) :
    List TocEntry :=
  syntheticProbeAux probe base 1 200

/-! ## Concrete example inputs -/

/-- A `<br/>` element. -/
def brElem : Html := .elem "br" (hl [])

/-- A division body that serialises with no block-level content and no
text at all (e.g. an empty wrapper `<div></div>`). -/
def emptyDivisionHtml : Html := .elem "div" (hl [])

/-- A paragraph with exactly 3 line-break markers but only one nonempty
line: `<p>Eins<br/><br/><br/></p>`. -/
def threeBrOneLineHtml : Html :=
  .elem "p" (hl [.text "Eins", brElem, brElem, brElem])

/-- A paragraph with exactly 3 line-break markers and four nonempty lines. -/
def threeBrFourLinesHtml : Html :=
  .elem "p" (hl [.text "Eins", brElem, .text "Zwei", brElem, .text "Drei",
    brElem, .text "Vier"])

/-- A prose division body with one paragraph. -/
def helloHtml : Html := .elem "div" (hl [.elem "p" (hl [.text "Hallo Welt"])])

/-- Two notes, the first referenced by a link and the second unreferenced. -/
def demoNoteA : Note :=
  ⟨"note-a", "work-1", "12:1", "footnote", "<li>a</li>", "a", 1⟩

def demoNoteB : Note :=
  ⟨"note-b", "work-1", "12:2", "footnote", "<li>b</li>", "b", 2⟩

def demoNoteLink : NoteLink :=
  ⟨"link-1", "work-1", "note-a", "passage-1", "1", "text eins", none⟩

/-- A two-entry TOC: a level-1 book containing a level-2 chapter. -/
def demoTocEntries : List TocEntry :=
  [⟨1, "Buch I", none, true, none⟩, ⟨2, "Kapitel 1", none, true, none⟩]

/-- A probe oracle on which divisions 1-4 respond with full bodies and
division 5 is not found (end-to-end scenario B of the spec). -/
def demoProbe (n : Nat) : ProbeResult :=
  if n ≤ 4 then .resp 200 1000 else .resp 404 120

/-! # Theorems -/

/-- C1: Identity derivation is deterministic — author and work slug strings
that are equal after normalization map to the same `uuid5`-derived UUID in
the respective fixed namespace, and re-processing a version whose
normalized author and work slugs are unchanged yields the identical
`(Author.id, Work.id)` pair. -/
theorem identity_derivation_deterministic :
    (∀ s t : String, slugifyName s = slugifyName t →
      uuid5 uuidNamespaceAuthors (slugifyName s) =
        uuid5 uuidNamespaceAuthors (slugifyName t) ∧
      uuid5 uuidNamespaceWorks (slugifyName s) =
        uuid5 uuidNamespaceWorks (slugifyName t)) ∧
    (∀ a1 a2 t1 t2 o1 o2, authorSlugOf a1 = authorSlugOf a2 →
      workSlugOf a1 t1 o1 = workSlugOf a2 t2 o2 →
      deriveIdentity a1 t1 o1 = deriveIdentity a2 t2 o2) := by
  constructor
  · intro s t h
    rw [h]
    exact ⟨rfl, rfl⟩
  · intro a1 a2 t1 t2 o1 o2 h1 h2
    simp only [deriveIdentity, h1, h2]

/-- C1 witness: two textually different author names with the same
normalized slug derive the identical identity pair. -/
theorem identity_derivation_deterministic_witness :
    slugifyName "Augustinus von Hippo" = slugifyName " augustinus-von-hippo" ∧
    deriveIdentity "Augustinus von Hippo" (some "Bekenntnisse") none =
      deriveIdentity " augustinus-von-hippo" (some "Bekenntnisse") none :=
  ⟨by decide,
   identity_derivation_deterministic.2 "Augustinus von Hippo"
     " augustinus-von-hippo" (some "Bekenntnisse") (some "Bekenntnisse")
     none none (by decide) (by decide)⟩

/-- C2 counterexample: a content-unit whose body has no block-level lines
and whose plain text is empty is still processed into a passage, but the
line extraction emits zero `Verse` rows — refuting "a passage never has
zero lines" as universally stated. -/
theorem passage_zero_lines_counterexample :
    passageVerses emptyDivisionHtml = [] := by decide

/-- C2 amended: detected verse passages always carry at least 3 lines, and
the block-line extraction emits at least one line whenever the unit's
cleaned full plain text is nonempty (the fallback line guarantees this);
a unit whose content cleans to empty yields a passage with zero lines. -/
theorem passage_lines_nonempty_of_text :
    ∀ doc : Html,
      (∀ vls, detectVerses doc = some vls → 3 ≤ vls.length) ∧
      (cleanedFallbackText doc ≠ "" → extractTextLines doc ≠ []) := by
  intro doc
  constructor
  · intro vls h
    unfold detectVerses at h
    by_cases hbc : Html.brCount doc < 3
    · rw [if_pos hbc] at h
      exact absurd h (by simp)
    · rw [if_neg hbc] at h
      by_cases hlen : 3 ≤ (verseLineCandidates doc).length
      · rw [if_pos hlen] at h
        cases h
        exact hlen
      · rw [if_neg hlen] at h
        exact absurd h (by simp)
  · intro hfb
    cases hls : doc.findBlocks.filterMap lineOfBlock with
    | nil =>
      simp only [extractTextLines, hls, List.isEmpty_nil, if_true]
      rw [if_neg hfb]
      simp
    | cons a as =>
      simp only [extractTextLines, hls, List.isEmpty_cons]
      simp

/-- C2 witness: a one-paragraph prose unit has nonempty cleaned text and
receives at least one extracted line. -/
theorem passage_lines_nonempty_of_text_witness :
    cleanedFallbackText helloHtml ≠ "" ∧ extractTextLines helloHtml ≠ [] :=
  ⟨by decide, (passage_lines_nonempty_of_text helloHtml).2 (by decide)⟩

/-- C3 counterexample: a body with exactly 3 line-break markers whose text
splits into fewer than 3 nonempty lines is classified prose
(`detect_verses` returns `None`), refuting "with exactly 3 it is
classified verse" as universally stated. -/
theorem verse_threshold_counterexample :
    Html.brCount threeBrOneLineHtml = 3 ∧
      detectVerses threeBrOneLineHtml = none := by decide

/-- C3 amended: with exactly 2 line-break markers a body is classified
prose; with exactly 3, it passes the marker gate and is classified verse
precisely when at least 3 nonempty cleaned lines result from splitting,
otherwise prose. -/
theorem verse_threshold_boundary :
    ∀ doc : Html,
      (Html.brCount doc = 2 → detectVerses doc = none) ∧
      (Html.brCount doc = 3 →
        (3 ≤ (verseLineCandidates doc).length →
          detectVerses doc = some (verseLineCandidates doc)) ∧
        ((verseLineCandidates doc).length < 3 → detectVerses doc = none)) := by
  intro doc
  constructor
  · intro h2
    unfold detectVerses
    rw [if_pos (by omega)]
  · intro h3
    constructor
    · intro hlen
      unfold detectVerses
      rw [if_neg (by omega), if_pos hlen]
    · intro hlen
      unfold detectVerses
      rw [if_neg (by omega), if_neg (by omega)]

/-- C3 witness: a body with exactly 3 line-break markers and 4 surviving
lines is classified verse. -/
theorem verse_threshold_boundary_witness :
    detectVerses threeBrFourLinesHtml =
      some (verseLineCandidates threeBrFourLinesHtml) :=
  ((verse_threshold_boundary threeBrFourLinesHtml).2 (by decide)).1 (by decide)

/-- C4: after pruning, every persisted note's id is referenced by some
note link, and notes referenced by no link are dropped. -/
theorem prune_notes_complete :
    ∀ (links : List NoteLink) (notes : List Note),
      (∀ n ∈ pruneNotes links notes, ∃ l ∈ links, l.noteId = n.id) ∧
      (∀ n ∈ notes, (∀ l ∈ links, l.noteId ≠ n.id) →
        n ∉ pruneNotes links notes) := by
  intro links notes
  have key : ∀ n ∈ pruneNotes links notes, ∃ l ∈ links, l.noteId = n.id := by
    intro n hn
    cases links with
    | nil => simp [pruneNotes] at hn
    | cons l ls =>
      simp [pruneNotes, List.mem_filter, List.any_eq_true] at hn
      rcases hn.2 with h | ⟨x, hx, hxe⟩
      · exact ⟨l, List.mem_cons_self l ls, h⟩
      · exact ⟨x, List.mem_cons_of_mem l hx, hxe⟩
  refine ⟨key, ?_⟩
  intro n _ hnone hmem
  obtain ⟨l, hl, hle⟩ := key n hmem
  exact hnone l hl hle

/-- C4 witness: with one link referencing note `note-a`, pruning keeps
`note-a` (and the kept note is indeed referenced), while the unreferenced
`note-b` is dropped. -/
theorem prune_notes_complete_witness :
    (∃ l ∈ [demoNoteLink], l.noteId = demoNoteA.id) ∧
      demoNoteB ∉ pruneNotes [demoNoteLink] [demoNoteA, demoNoteB] :=
  ⟨(prune_notes_complete [demoNoteLink] [demoNoteA, demoNoteB]).1 demoNoteA
     (by decide),
   (prune_notes_complete [demoNoteLink] [demoNoteA, demoNoteB]).2 demoNoteB
     (by decide) (by decide)⟩

/-- Elements of the popped stack come from the original stack. -/
theorem popStack_sub :
    ∀ (stack : List (Nat × Nat)) (lvl : Nat), ∀ x ∈ popStack stack lvl, x ∈ stack := by
  intro stack
  induction stack with
  | nil => intro lvl x hx; simp [popStack] at hx
  | cons p rest ih =>
    intro lvl x hx
    obtain ⟨l, sid⟩ := p
    simp only [popStack] at hx
    by_cases h : lvl ≤ l
    · rw [if_pos h] at hx
      exact List.mem_cons_of_mem _ (ih lvl x hx)
    · rw [if_neg h] at hx
      exact hx

/-- The top of the popped stack has level strictly below the popping level
(the loop pops while the top's level is `≥ level`). -/
theorem popStack_head_lt :
    ∀ (stack : List (Nat × Nat)) (lvl l sid : Nat) (rest : List (Nat × Nat)),
      popStack stack lvl = (l, sid) :: rest → l < lvl := by
  intro stack
  induction stack with
  | nil => intro lvl l sid rest h; simp [popStack] at h
  | cons p prest ih =>
    intro lvl l sid rest h
    obtain ⟨pl, pid⟩ := p
    simp only [popStack] at h
    by_cases hc : lvl ≤ pl
    · rw [if_pos hc] at h
      exact ih lvl l sid rest h
    · rw [if_neg hc] at h
      cases h
      omega

/-- The parent of every assembled section is either an entry of the
initial stack with smaller level, or an earlier-assembled section with
smaller level. -/
theorem buildSectionsAux_parent (maxS : Option Nat) :
    ∀ (entries : List TocEntry) (idx : Nat) (stack : List (Nat × Nat)),
      ∀ s ∈ buildSectionsAux maxS entries idx stack, ∀ pid,
        s.parentId = some pid →
        (∃ l, (l, pid) ∈ stack ∧ l < s.level) ∨
        (∃ p ∈ buildSectionsAux maxS entries idx stack,
          p.id = pid ∧ p.level < s.level) := by
  intro entries
  induction entries with
  | nil => intro idx stack s hs; simp [buildSectionsAux] at hs
  | cons e rest ih =>
    intro idx stack s hs pid hpid
    by_cases hbr : sectionBreak maxS idx = true
    · simp [buildSectionsAux, hbr] at hs
    · simp only [buildSectionsAux, hbr, Bool.false_eq_true, if_false] at hs ⊢
      rcases List.mem_cons.mp hs with rfl | hs'
      · cases hhd : popStack stack e.level with
        | nil =>
          rw [hhd] at hpid
          simp at hpid
        | cons q qrest =>
          obtain ⟨l1, i1⟩ := q
          rw [hhd] at hpid
          simp at hpid
          left
          refine ⟨l1, ?_, ?_⟩
          · have hm : (l1, i1) ∈ popStack stack e.level := by
              rw [hhd]; exact List.mem_cons_self _ _
            have hins := popStack_sub stack e.level (l1, i1) hm
            rwa [hpid] at hins
          · exact popStack_head_lt stack e.level l1 i1 qrest hhd
      · rcases ih (idx + 1) ((e.level, idx) :: popStack stack e.level) s hs' pid hpid with
          ⟨l, hmem, hlt⟩ | ⟨p, hp, hpe⟩
        · rcases List.mem_cons.mp hmem with heq | hmem'
          · right
            have h1 : l = e.level := congrArg Prod.fst heq
            have h2 : pid = idx := congrArg Prod.snd heq
            refine ⟨⟨idx, (popStack stack e.level).head?.map Prod.snd, e.level,
              e.label, idx⟩, List.mem_cons_self _ _, ?_, ?_⟩
            · exact h2.symm
            · rw [← h1]; exact hlt
          · left
            exact ⟨l, popStack_sub stack e.level (l, pid) hmem', hlt⟩
        · right
          exact ⟨p, List.mem_cons_of_mem _ hp, hpe⟩

/-- Every assembled section has `order_index ≥` the starting counter, and
the order indexes form a strictly increasing chain. -/
theorem buildSectionsAux_order (maxS : Option Nat) :
    ∀ (entries : List TocEntry) (idx : Nat) (stack : List (Nat × Nat)),
      (∀ s ∈ buildSectionsAux maxS entries idx stack, idx ≤ s.orderIndex) ∧
      List.Chain' (fun a b => a.orderIndex < b.orderIndex)
        (buildSectionsAux maxS entries idx stack) := by
  intro entries
  induction entries with
  | nil => intro idx stack; simp [buildSectionsAux]
  | cons e rest ih =>
    intro idx stack
    by_cases hbr : sectionBreak maxS idx = true
    · simp [buildSectionsAux, hbr]
    · simp only [buildSectionsAux, hbr, Bool.false_eq_true, if_false]
      obtain ⟨ihb, ihc⟩ := ih (idx + 1) ((e.level, idx) :: popStack stack e.level)
      constructor
      · intro s hs
        rcases List.mem_cons.mp hs with rfl | hs'
        · exact le_refl _
        · exact le_trans (Nat.le_succ idx) (ihb s hs')
      · refine List.chain'_cons'.mpr ⟨?_, ihc⟩
        intro y hy
        have hmem : y ∈ buildSectionsAux maxS rest (idx + 1)
            ((e.level, idx) :: popStack stack e.level) :=
          List.mem_of_mem_head? hy
        have hge := ihb y hmem
        show idx < y.orderIndex
        omega

/-- C5: in every assembled section list, a section with a parent has level
strictly greater than its parent's level, and `order_index` strictly
increases in traversal order. -/
theorem section_tree_invariant :
    ∀ (maxSections : Option Nat) (entries : List TocEntry),
      (∀ s ∈ buildSections maxSections entries, ∀ pid, s.parentId = some pid →
        ∃ p ∈ buildSections maxSections entries, p.id = pid ∧ p.level < s.level) ∧
      List.Chain' (fun a b => a.orderIndex < b.orderIndex)
        (buildSections maxSections entries) := by
  intro maxS entries
  refine ⟨?_, (buildSectionsAux_order maxS entries 1 []).2⟩
  intro s hs pid hpid
  rcases buildSectionsAux_parent maxS entries 1 [] s hs pid hpid with
    ⟨l, hmem, _⟩ | h
  · simp at hmem
  · exact h

/-- C5 witness: in the two-entry demo TOC, the level-2 chapter's parent is
the level-1 book. -/
theorem section_tree_invariant_witness :
    ∃ p ∈ buildSections none demoTocEntries, p.id = 1 ∧
      p.level < (⟨2, some 1, 2, "Kapitel 1", 2⟩ : SectionRec).level :=
  (section_tree_invariant none demoTocEntries).1
    ⟨2, some 1, 2, "Kapitel 1", 2⟩ (by decide) 1 (by decide)

/-- The probing loop: if the first `k` probes pass and probe `n + k`
fails, exactly the entries for `n, ..., n + k - 1` are produced. -/
theorem syntheticProbeAux_eq (probe : Nat → ProbeResult) (base : String) :
    ∀ (k fuel n : Nat), k ≤ fuel →
      (∀ m, n ≤ m → m < n + k → probeOk (probe m) = true) →
      probeOk (probe (n + k)) = false →
      syntheticProbeAux probe base n fuel =
        (List.range' n k).map (syntheticEntry base) := by
  intro k
  induction k with
  | zero =>
    intro fuel n _ _ hhalt
    cases fuel with
    | zero => simp [syntheticProbeAux]
    | succ f =>
      simp only [Nat.add_zero] at hhalt
      simp [syntheticProbeAux, hhalt]
  | succ k ih =>
    intro fuel n hfuel hsuc hhalt
    cases fuel with
    | zero => omega
    | succ f =>
      have hok : probeOk (probe n) = true := hsuc n le_rfl (by omega)
      simp only [syntheticProbeAux, hok, if_true]
      rw [List.range'_succ, List.map_cons]
      congr 1
      refine ih f (n + 1) (by omega) (fun m h1 h2 => hsuc m (by omega) (by omega)) ?_
      have he : n + 1 + k = n + (k + 1) := by omega
      rw [he]
      exact hhalt

/-- C6: when no explicit TOC exists and, for some `k ≤ 200`, synthetic
probes 1..k succeed while probe `k+1` halts (error, non-200 or short
body), the fallback TOC is exactly the `k` level-1 division entries in
order 1..k. -/
theorem synthetic_toc_probing :
    ∀ (probe : Nat → ProbeResult) (base : String) (k : Nat), k ≤ 200 →
      (∀ n, 1 ≤ n → n ≤ k → probeOk (probe n) = true) →
      probeOk (probe (k + 1)) = false →
      syntheticDivisionToc probe base =
        (List.range' 1 k).map (syntheticEntry base) ∧
      (syntheticDivisionToc probe base).length = k := by
  intro probe base k hk hsuc hhalt
  have heq : syntheticDivisionToc probe base =
      (List.range' 1 k).map (syntheticEntry base) := by
    unfold syntheticDivisionToc
    refine syntheticProbeAux_eq probe base k 200 1 hk
      (fun m h1 h2 => hsuc m h1 (by omega)) ?_
    have he : 1 + k = k + 1 := by omega
    rw [he]
    exact hhalt
  refine ⟨heq, ?_⟩
  rw [heq]
  simp

/-- C6 witness (end-to-end scenario B): four passing probes and a
not-found fifth yield exactly the four level-1 division entries. -/
theorem synthetic_toc_probing_witness :
    syntheticDivisionToc demoProbe "https://bkv.example/de/works/w/versions/v" =
      (List.range' 1 4).map
        (syntheticEntry "https://bkv.example/de/works/w/versions/v") :=
  (synthetic_toc_probing demoProbe "https://bkv.example/de/works/w/versions/v" 4
    (by omega) (fun n h1 h2 => by interval_cases n <;> decide) (by decide)).1

/-- C7 counterexample: a unit labelled "Kommentar" is pre-classified
`commentary`; with a short body (fewer than 80 words) and one footnote
entry, the post-content pass keeps `commentary` — it does not reassign
`notes`, refuting "whatever role the pre-content pass assigned". -/
theorem notes_reclassification_counterexample :
    (classifySectionRolePreContent (some "Kommentar") none 1 1 3).1 =
      "commentary" ∧
    pyWordCount "nur wenige Worte hier" < 80 ∧
    (refineSectionRolePostContent
      (classifySectionRolePreContent (some "Kommentar") none 1 1 3).1
      (classifySectionRolePreContent (some "Kommentar") none 1 1 3).2
      "nur wenige Worte hier" false 1 1 1 3 (some "Kommentar") none).1 =
      "commentary" := by
  decide

/-- C7 amended: a unit with fewer than 80 words and at least one footnote
entry is reassigned role `notes` by the post-content pass unless the
pre-content pass already assigned `notes` (kept) or `commentary` (kept as
`commentary`). -/
theorem notes_reclassification_refined :
    ∀ (role : String) (reasons : List String) (plainText : String)
      (containsVerses : Bool) (noteCount level orderIndex totalSections : Nat)
      (label heading : Option String),
      1 ≤ noteCount → pyWordCount plainText < 80 →
      role ≠ "notes" → role ≠ "commentary" →
      (refineSectionRolePostContent role reasons plainText containsVerses
        noteCount level orderIndex totalSections label heading).1 = "notes" := by
  intro role reasons plainText cv nc lvl oi ts label heading h1 h2 h3 h4
  simp only [refineSectionRolePostContent]
  rw [if_pos (show 0 < nc ∧ pyWordCount plainText < 80 ∧ role ≠ "notes" ∧
    role ≠ "commentary" from ⟨h1, h2, h3, h4⟩)]
  simp

/-- C7 witness: a `main_text` unit with 2 words and one footnote entry is
reassigned `notes`. -/
theorem notes_reclassification_refined_witness :
    (refineSectionRolePostContent "main_text" [] "kurzer Text" false 1 1 1 3
      none none).1 = "notes" :=
  notes_reclassification_refined "main_text" [] "kurzer Text" false 1 1 1 3
    none none (by decide) (by decide) (by decide) (by decide)

/-- C8: an upsert whose store response reports status 409 (duplicate key
conflict) is accepted as a successful no-op for every table and batch; the
status check can only accept or log, never raise. -/
theorem upsert_conflict_is_success :
    ∀ (table : String) (rows : List (String × String)),
      upsertBlocking table rows (some 409) = UpsertOutcome.ok := by
  intro table rows
  simp [upsertBlocking]

/-- C8 witness: a conflict on the notes table is a successful no-op. -/
theorem upsert_conflict_is_success_witness :
    upsertBlocking "notes" [] (some 409) = UpsertOutcome.ok :=
  upsert_conflict_is_success "notes" []

/-- The probing loop emits at most `fuel` entries, all of level 1. -/
theorem syntheticProbeAux_bound (probe : Nat → ProbeResult) (base : String) :
    ∀ (fuel n : Nat),
      (syntheticProbeAux probe base n fuel).length ≤ fuel ∧
      ∀ e ∈ syntheticProbeAux probe base n fuel, e.level = 1 := by
  intro fuel
  induction fuel with
  | zero => intro n; simp [syntheticProbeAux]
  | succ f ih =>
    intro n
    by_cases h : probeOk (probe n) = true
    · simp only [syntheticProbeAux, h, if_true]
      constructor
      · have := (ih (n + 1)).1
        simp only [List.length_cons]
        omega
      · intro e he
        rcases List.mem_cons.mp he with rfl | he'
        · rfl
        · exact (ih (n + 1)).2 e he'
    · simp [syntheticProbeAux, h]

/-- C9: synthetic probing always terminates after at most 200 probes, so
the fallback TOC holds at most 200 entries — all of level 1. -/
theorem synthetic_probe_bounded :
    ∀ (probe : Nat → ProbeResult) (base : String),
      (syntheticDivisionToc probe base).length ≤ 200 ∧
      ∀ e ∈ syntheticDivisionToc probe base, e.level = 1 := by
  intro probe base
  unfold syntheticDivisionToc
  exact syntheticProbeAux_bound probe base 200 1

/-- C9 witness: the demo probe's fallback TOC respects the bound and its
first entry has level 1. -/
theorem synthetic_probe_bounded_witness :
    (syntheticDivisionToc demoProbe "b").length ≤ 200 ∧
      (syntheticEntry "b" 1).level = 1 :=
  ⟨(synthetic_probe_bounded demoProbe "b").1,
   (synthetic_probe_bounded demoProbe "b").2 (syntheticEntry "b" 1) (by decide)⟩

/-- C10: in the per-work structure summary, `has_introduction` holds
exactly when some section's role is `introduction` or `preface`,
`has_commentary` exactly when some role is `commentary` or `notes`, and
`has_appendix` exactly when some role is `appendix`. -/
theorem structure_summary_flags :
    ∀ roles : List String,
      ((buildStructureSummary roles).hasIntroduction = true ↔
        "introduction" ∈ roles ∨ "preface" ∈ roles) ∧
      ((buildStructureSummary roles).hasCommentary = true ↔
        "commentary" ∈ roles ∨ "notes" ∈ roles) ∧
      ((buildStructureSummary roles).hasAppendix = true ↔
        "appendix" ∈ roles) := by
  intro roles
  by_cases h : roles.isEmpty = true
  · have he : roles = [] := List.isEmpty_iff.mp h
    subst he
    simp [buildStructureSummary]
  · simp [buildStructureSummary, h, List.count_eq_zero, Nat.pos_iff_ne_zero]

/-- C10 witness: a work with one `main_text` and one `notes` section has
`has_commentary` set. -/
theorem structure_summary_flags_witness :
    (buildStructureSummary ["main_text", "notes"]).hasCommentary = true :=
  ((structure_summary_flags ["main_text", "notes"]).2.1).mpr (Or.inr (by decide))

end BKV
